import Mathlib

/-!
Shallow embedding of the relation lifecycle engine of `state/relation.go`
(package `state`): relation destruction (`Destroy`, `destroyOps`,
`removeOps`, `removeLocalEndpointOps`, `removeRemoteEndpointOps`),
snapshot refresh (`Refresh`), and the deferred settings cleanup handler
(`relationSettingsCleanupChange.Prepare`).

MongoDB documents become Lean structures; `bson.D` assertion documents
become a small condition datatype evaluated against a document's fields;
`txn.Op` becomes an `Op` structure; the optimistic transaction runner
(`st.run` from the juju txn package) becomes a fuel-bounded loop over an
explicit `Store`.  Go `int` fields are modelled as `Int`.
-/

namespace JujuState

/-- `Life` enum: Alive, Dying, Dead. -/
inductive Life
  | Alive
  | Dying
  | Dead
deriving DecidableEq, Repr

/-- Charm relation role (`charm.RolePeer` etc.). -/
inductive Role
  | Peer
  | Provider
  | Requirer
deriving DecidableEq, Repr

/-- A relation endpoint: the application it belongs to and its role.
Only the fields the embedded code reads are modelled. -/
structure Endpoint where
  applicationName : String
  role : Role
deriving DecidableEq, Repr

/-- `relationDoc`: the persisted relation document.  `docID` is the
`_id` (the model-uuid prefixing by `st.docID` is modelled as the
identity, i.e. a single-model store). -/
structure RelationDoc where
  docID : String
  key : String
  id : Int
  endpoints : List Endpoint
  life : Life
  unitCount : Int
deriving DecidableEq, Repr

/-- A local application document, with the fields read by this code:
life, unit count and relation count. -/
structure ApplicationDoc where
  name : String
  life : Life
  unitCount : Int
  relationCount : Int
deriving DecidableEq, Repr

/-- A remote application document: life and relation count. -/
structure RemoteApplicationDoc where
  name : String
  life : Life
  relationCount : Int
deriving DecidableEq, Repr

/-- The collections touched by the embedded code. -/
inductive Collection
  | relationsC
  | applicationsC
  | remoteApplicationsC
  | settingsC
  | cleanupsC
deriving DecidableEq, Repr

/-- A single field condition of a `bson.D` assertion document. -/
inductive BCond
  | lifeIs (l : Life)
  | unitcountEq (n : Int)
  | unitcountGt (n : Int)
  | relationcountEq (n : Int)
  | relationcountGt (n : Int)
deriving DecidableEq, Repr

/-- One entry of a `bson.D` assertion: either a plain field condition or
a `$or` over alternatives (each alternative in the source is a
one-element `bson.D`, hence one `BCond`). -/
inductive Cond
  | base (b : BCond)
  | or (alts : List BCond)
deriving DecidableEq, Repr

/-- A `txn.Op`: collection, document id, assertion (conjunction of
conditions), and the mutation it carries.  The mutations used by this
code are: `$set {life: l}`, `$inc {relationcount: n}`, document removal,
and cleanup-record insertion. -/
structure Op where
  c : Collection
  id : String
  assert : List Cond := []
  setLife : Option Life := none
  incRelationcount : Option Int := none
  remove : Bool := false
  insertCleanup : Option (String × String) := none
deriving DecidableEq, Repr

/-- The store: the collections read and written by the embedded code.
`settings` holds the `_id`s of settings documents; `cleanups` the
enqueued cleanup records as (kind, key-prefix) pairs. -/
structure Store where
  relations : List RelationDoc := []
  applications : List ApplicationDoc := []
  remoteApplications : List RemoteApplicationDoc := []
  settings : List String := []
  cleanups : List (String × String) := []
deriving DecidableEq, Repr

/-- Errors surfaced by the embedded code.  `alreadyDying` is
`errAlreadyDying`; `peerRelation` the "is a peer relation" error;
`notFound` the `errors.NotFoundf` family; `excessiveContention` the
runner's retry-budget exhaustion error. -/
inductive RErr
  | alreadyDying
  | peerRelation
  | notFound
  | excessiveContention
deriving DecidableEq, Repr

/-- The generic field view a `bson.D` assertion is evaluated against. -/
structure DocFields where
  life : Life
  unitcount : Int
  relationcount : Int
deriving DecidableEq, Repr

/-- Evaluate one field condition against a document's fields. -/
def bcondHolds (f : DocFields) : BCond → Bool
  | .lifeIs l => f.life = l
  | .unitcountEq n => f.unitcount = n
  | .unitcountGt n => n < f.unitcount
  | .relationcountEq n => f.relationcount = n
  | .relationcountGt n => n < f.relationcount

/-- Evaluate one assertion entry against a document's fields. -/
def condHolds (f : DocFields) : Cond → Bool
  | .base b => bcondHolds f b
  | .or alts => alts.any (bcondHolds f)

/-- Evaluate a whole assertion document (conjunction). -/
def assertHolds (f : DocFields) (a : List Cond) : Bool :=
  a.all (condHolds f)

/-- `isAliveDoc` (`bson.D{{"life", Alive}}`), defined alongside this
code in the `state` package. -/
def isAliveDoc : List Cond := [.base (.lifeIs .Alive)]

/-- Field view of a relation document (relation docs carry no
relationcount field; none of the generated assertions test it on a
relation). -/
def RelationDoc.fields (d : RelationDoc) : DocFields :=
  { life := d.life, unitcount := d.unitCount, relationcount := 0 }

/-- Field view of a local application document. -/
def ApplicationDoc.fields (d : ApplicationDoc) : DocFields :=
  { life := d.life, unitcount := d.unitCount, relationcount := d.relationCount }

/-- Field view of a remote application document (no unitcount field;
none of the generated assertions test it on a remote application). -/
def RemoteApplicationDoc.fields (d : RemoteApplicationDoc) : DocFields :=
  { life := d.life, unitcount := 0, relationcount := d.relationCount }

/-- `FindId` on the relations collection. -/
def findRelation (st : Store) (docID : String) : Option RelationDoc :=
  st.relations.find? (fun d => d.docID == docID)

/-- `Find({_id: name})` on the applications collection. -/
def findApplication (st : Store) (name : String) : Option ApplicationDoc :=
  st.applications.find? (fun d => d.name == name)

/-- `Find({_id: name})` on the remote applications collection. -/
def findRemoteApplication (st : Store) (name : String) : Option RemoteApplicationDoc :=
  st.remoteApplications.find? (fun d => d.name == name)

/-- Modelled from the spec: `applicationByName` / `ApplicationEntity.IsRemote`
(defined outside this file's source) resolve an endpoint's application
name to either a local or a remote/foreign entity ("determine whether
that related entity is a local entity ... or a remote/foreign entity").
Local applications are consulted first. -/
def applicationIsRemote (st : Store) (name : String) : Except RErr Bool :=
  match findApplication st name with
  | some _ => .ok false
  | none =>
    match findRemoteApplication st name with
    | some _ => .ok true
    | none => .error .notFound

/-- Split a character list at the first `/`: the part before and the
part after, or `none` when no `/` occurs. -/
def splitAtSlash : List Char → Option (List Char × List Char)
  | [] => none
  | c :: cs =>
    if c = '/' then some ([], cs)
    else
      match splitAtSlash cs with
      | some (a, b) => some (c :: a, b)
      | none => none

/-- `names.UnitApplication` (external naming library): extract the
application name from a unit name `application/number`; errors (`none`)
on malformed names.  Simplified from the library's regex: the part
before the `/` must be nonempty and the part after nonempty digits. -/
def unitApplication (unitName : String) : Option String :=
  match splitAtSlash unitName.toList with
  | some (app, rest) =>
    if app ≠ [] ∧ rest ≠ [] ∧ rest.all Char.isDigit then some (String.mk app) else none
  | none => none

/-- The `departingUnitServiceMatchesEndpoint` closure of
`removeLocalEndpointOps`: the departing unit's name parses and its
application is the endpoint's application. -/
def departingMatchesEndpoint (departingUnitName : String) (ep : Endpoint) : Bool :=
  match unitApplication departingUnitName with
  | some s => s == ep.applicationName
  | none => false

/-- `cleanupRelationSettings`, the cleanup-kind tag for relation
settings documents. -/
def cleanupRelationSettings : String := "settings"

/-- Modelled from the spec: `newCleanupOp` (defined outside this file's
source) builds the cleanup-enqueue operation — "Append one
cleanup-enqueue operation recording that satellite data ... must be
purged asynchronously"; each cleanup record carries a kind tag and a key
prefix. -/
def newCleanupOp (kind : String) (pre : String) : Op :=
  { c := .cleanupsC, id := kind ++ "#" ++ pre, insertCleanup := some (kind, pre) }

/-- `hasLastRef` for a local application: Dying, no units, and this
relation as sole referent. -/
def hasLastRefLocal : List Cond :=
  [.base (.lifeIs .Dying), .base (.unitcountEq 0), .base (.relationcountEq 1)]

/-- `hasLastRef` for a remote application: Dying with this relation as
sole referent. -/
def hasLastRefRemote : List Cond :=
  [.base (.lifeIs .Dying), .base (.relationcountEq 1)]

/-- Modelled from the spec: `Application.removeOps(asserts)` (defined
outside this file's source) returns the application's removal operation
set — "An operation removing the entity's own document", asserting the
condition passed by the caller. -/
def applicationRemoveOps (svc : ApplicationDoc) (asserts : List Cond) : Except RErr (List Op) :=
  .ok [{ c := .applicationsC, id := svc.name, assert := asserts, remove := true }]

/-- Modelled from the spec: `RemoteApplication.removeOps(asserts)`
(defined outside this file's source) returns the remote application's
removal operation set — the operation removing its own document,
asserting the condition passed by the caller. -/
def remoteApplicationRemoveOps (svc : RemoteApplicationDoc) (asserts : List Cond) : List Op :=
  [{ c := .remoteApplicationsC, id := svc.name, assert := asserts, remove := true }]

/-- `Relation.removeLocalEndpointOps`. -/
def removeLocalEndpointOps (st : Store) (ep : Endpoint) (departingUnitName : String) :
    Except RErr (List Op) :=
  let hasRelation : List Cond := [.base (.relationcountGt 0)]
  if departingUnitName = "" then
    .ok [{ c := .applicationsC, id := ep.applicationName,
           assert := hasRelation ++ isAliveDoc,
           incRelationcount := some (-1) }]
  else if departingMatchesEndpoint departingUnitName ep then
    .ok [{ c := .applicationsC, id := ep.applicationName,
           assert := hasRelation ++ [.base (.unitcountGt 0)],
           incRelationcount := some (-1) }]
  else
    match findApplication st ep.applicationName with
    | some svc =>
      if svc.life = .Dying ∧ svc.unitCount = 0 ∧ svc.relationCount = 1 then
        applicationRemoveOps svc hasLastRefLocal
      else
        .ok [{ c := .applicationsC, id := ep.applicationName,
               assert := [.or [.lifeIs .Alive, .unitcountGt 0, .relationcountGt 1]],
               incRelationcount := some (-1) }]
    | none =>
      .ok [{ c := .applicationsC, id := ep.applicationName,
             assert := [.or [.lifeIs .Alive, .unitcountGt 0, .relationcountGt 1]],
             incRelationcount := some (-1) }]

/-- `Relation.removeRemoteEndpointOps`. -/
def removeRemoteEndpointOps (st : Store) (ep : Endpoint) (unitDying : Bool) :
    Except RErr (List Op) :=
  let hasRelation : List Cond := [.base (.relationcountGt 0)]
  if !unitDying then
    .ok [{ c := .remoteApplicationsC, id := ep.applicationName,
           assert := hasRelation ++ isAliveDoc,
           incRelationcount := some (-1) }]
  else
    match findRemoteApplication st ep.applicationName with
    | some svc =>
      if svc.life = .Dying ∧ svc.relationCount = 1 then
        .ok (remoteApplicationRemoveOps svc hasLastRefRemote)
      else
        .ok [{ c := .remoteApplicationsC, id := ep.applicationName,
               assert := [.or [.lifeIs .Alive, .relationcountGt 1]],
               incRelationcount := some (-1) }]
    | none =>
      .ok [{ c := .remoteApplicationsC, id := ep.applicationName,
             assert := [.or [.lifeIs .Alive, .relationcountGt 1]],
             incRelationcount := some (-1) }]

/-- The endpoint loop of `Relation.removeOps`: for each endpoint not
matching `ignoreService`, resolve its application and append the local
or remote decrement/removal operations. -/
def endpointOps (st : Store) (ignoreService departingUnitName : String) :
    List Endpoint → Except RErr (List Op)
  | [] => .ok []
  | ep :: rest =>
    if ep.applicationName = ignoreService then
      endpointOps st ignoreService departingUnitName rest
    else
      match applicationIsRemote st ep.applicationName with
      | .error e => .error e
      | .ok isRemote =>
        match (if isRemote then removeRemoteEndpointOps st ep (departingUnitName ≠ "")
               else removeLocalEndpointOps st ep departingUnitName) with
        | .error e => .error e
        | .ok epOps =>
          match endpointOps st ignoreService departingUnitName rest with
          | .error e => .error e
          | .ok restOps => .ok (epOps ++ restOps)

/-- `Relation.removeOps`: the self-removal operation, then endpoint
decrement/removal operations, then the relation-settings cleanup
operation. -/
def removeOps (st : Store) (doc : RelationDoc) (ignoreService departingUnitName : String) :
    Except RErr (List Op) :=
  let relOp : Op :=
    { c := .relationsC, id := doc.docID,
      assert :=
        if departingUnitName ≠ "" then
          [.base (.lifeIs .Dying), .base (.unitcountEq 1)]
        else
          [.base (.lifeIs .Alive), .base (.unitcountEq 0)],
      remove := true }
  match endpointOps st ignoreService departingUnitName doc.endpoints with
  | .error e => .error e
  | .ok epOps =>
    let cleanupOp := newCleanupOp cleanupRelationSettings ("r#" ++ toString doc.id ++ "#")
    .ok ((relOp :: epOps) ++ [cleanupOp])

/-- `Relation.destroyOps`: returns the operations and the `isRemove`
flag, or `errAlreadyDying`. -/
def destroyOps (st : Store) (doc : RelationDoc) (ignoreService : String) :
    Except RErr (List Op × Bool) :=
  if doc.life ≠ .Alive then
    .error .alreadyDying
  else if doc.unitCount = 0 then
    (removeOps st doc ignoreService "").map (fun ops => (ops, true))
  else
    .ok ([{ c := .relationsC, id := doc.docID,
            assert := [.base (.lifeIs .Alive), .base (.unitcountGt 0)],
            setLife := some .Dying }], false)

/-- `Relation.Refresh`: re-read the relation document; `none` models the
`errors.IsNotFound` error, returned both when no document exists for the
key and when the stored document's internal `Id` differs from the
snapshot's (a destroyed-and-recreated relation).  On `none` the caller's
in-memory document is left unchanged. -/
def refresh (st : Store) (rel : RelationDoc) : Option RelationDoc :=
  match findRelation st rel.docID with
  | none => none
  | some doc => if rel.id ≠ doc.id then none else some doc

/-- Does an operation's assertion hold against the store?  An op with no
assertion always passes; an asserting op on a missing document aborts
the transaction. -/
def opAssertOk (st : Store) (op : Op) : Bool :=
  if op.assert.isEmpty then
    true
  else
    match op.c with
    | .relationsC =>
      match findRelation st op.id with
      | some d => assertHolds d.fields op.assert
      | none => false
    | .applicationsC =>
      match findApplication st op.id with
      | some d => assertHolds d.fields op.assert
      | none => false
    | .remoteApplicationsC =>
      match findRemoteApplication st op.id with
      | some d => assertHolds d.fields op.assert
      | none => false
    | .settingsC => st.settings.contains op.id
    | .cleanupsC => true

/-- Apply one operation's mutation to the store. -/
def applyOp (st : Store) (op : Op) : Store :=
  match op.c with
  | .relationsC =>
    if op.remove then
      { st with relations := st.relations.filter (fun d => d.docID ≠ op.id) }
    else
      match op.setLife with
      | some l =>
        { st with relations :=
            st.relations.map (fun d => if d.docID = op.id then { d with life := l } else d) }
      | none => st
  | .applicationsC =>
    if op.remove then
      { st with applications := st.applications.filter (fun d => d.name ≠ op.id) }
    else
      match op.incRelationcount with
      | some n =>
        { st with applications :=
            st.applications.map (fun d =>
              if d.name = op.id then { d with relationCount := d.relationCount + n } else d) }
      | none => st
  | .remoteApplicationsC =>
    if op.remove then
      { st with remoteApplications := st.remoteApplications.filter (fun d => d.name ≠ op.id) }
    else
      match op.incRelationcount with
      | some n =>
        { st with remoteApplications :=
            st.remoteApplications.map (fun d =>
              if d.name = op.id then { d with relationCount := d.relationCount + n } else d) }
      | none => st
  | .settingsC =>
    if op.remove then { st with settings := st.settings.filter (fun i => i ≠ op.id) } else st
  | .cleanupsC =>
    match op.insertCleanup with
    | some rec₀ => { st with cleanups := st.cleanups ++ [rec₀] }
    | none => st

/-- Atomic conditional transaction submission: all assertions are
checked against the current store; if any fails the transaction aborts
(`none`), otherwise all mutations apply. -/
def applyTxn (st : Store) (ops : List Op) : Option Store :=
  if ops.all (opAssertOk st) then some (ops.foldl applyOp st) else none

/-- The transaction build step of `Relation.Destroy` (`buildTxn`): on a
retry (`attempt > 0`) refresh the snapshot first, treating NotFound as
success with an empty operation set; then build `destroyOps`, converting
`errAlreadyDying` into the runner's no-operations signal (modelled as an
empty operation set paired with the unchanged snapshot).  Returns the
possibly-refreshed snapshot alongside the operations. -/
def buildTxn (st : Store) (rel : RelationDoc) (attempt : Nat) :
    Except RErr (RelationDoc × Option (List Op)) :=
  if 0 < attempt then
    match refresh st rel with
    | none => .ok (rel, some [])
    | some doc =>
      match destroyOps st doc "" with
      | .error .alreadyDying => .ok (doc, none)
      | .error e => .error e
      | .ok (ops, _) => .ok (doc, some ops)
  else
    match destroyOps st rel "" with
    | .error .alreadyDying => .ok (rel, none)
    | .error e => .error e
    | .ok (ops, _) => .ok (rel, some ops)

/-- The retry budget of the optimistic transaction runner. -/
def nrRetries : Nat := 3

/-- The optimistic transaction runner (`st.run`): call the builder, stop
with success on the no-operations signal, submit otherwise, and retry on
an aborted (assertion-failed) transaction until the budget runs out. -/
def runLoop (st : Store) (rel : RelationDoc) (attempt : Nat) :
    Nat → Except RErr Unit × Store
  | 0 => (.error .excessiveContention, st)
  | fuel + 1 =>
    match buildTxn st rel attempt with
    | .error e => (.error e, st)
    | .ok (_, none) => (.ok (), st)
    | .ok (rel', some ops) =>
      match applyTxn st ops with
      | some st' => (.ok (), st')
      | none => runLoop st rel' (attempt + 1) fuel

/-- The peer-relation guard of `Relation.Destroy`:
`len(r.doc.Endpoints) == 1 && r.doc.Endpoints[0].Role == charm.RolePeer`. -/
def isSoloPeerRelation (doc : RelationDoc) : Bool :=
  match doc.endpoints with
  | [ep] => ep.role == Role.Peer
  | _ => false

/-- `Relation.Destroy`: refuse single-endpoint peer relations, run the
transaction loop, and on success set the in-memory snapshot's life to
Dying (the "white lie").  Returns the result, the final store, and the
caller's in-memory relation document. -/
def destroy (st : Store) (doc : RelationDoc) : Except RErr Unit × Store × RelationDoc :=
  if isSoloPeerRelation doc then
    (.error .peerRelation, st, doc)
  else
    match runLoop st doc 0 nrRetries with
    | (.ok (), st') => (.ok (), st', { doc with life := .Dying })
    | (.error e, st') => (.error e, st', doc)

/-- `ErrChangeComplete`, the cleanup handler's already-complete signal. -/
inductive CErr
  | changeComplete
deriving DecidableEq, Repr

/-- `relationSettingsCleanupChange.Prepare`: find every settings
document whose `_id` matches `^Prefix`; if none remain, signal
already-complete, otherwise return one removal operation per matched
document. -/
def relationSettingsCleanupPrepare (st : Store) (pre : String) : Except CErr (List Op) :=
  let docs := st.settings.filter (fun i => pre.toList.isPrefixOf i.toList)
  if docs.isEmpty then
    .error .changeComplete
  else
    .ok (docs.map (fun i => { c := .settingsC, id := i, remove := true }))

deriving instance DecidableEq for Except

/-! ### Concrete fixtures for the witness theorems -/

/-- An Alive local application with units and relations. -/
def appMysql : ApplicationDoc :=
  { name := "mysql", life := .Alive, unitCount := 3, relationCount := 2 }

/-- A second Alive local application. -/
def appWordpress : ApplicationDoc :=
  { name := "wordpress", life := .Alive, unitCount := 1, relationCount := 1 }

/-- A store holding the two Alive applications. -/
def stPair : Store := { applications := [appMysql, appWordpress] }

/-- An Alive relation between the two applications with no units in scope. -/
def relPair : RelationDoc :=
  { docID := "r1", key := "wordpress:db mysql:server", id := 7,
    endpoints := [{ applicationName := "mysql", role := .Provider },
                  { applicationName := "wordpress", role := .Requirer }],
    life := .Alive, unitCount := 0 }

/-- The removal operation set `removeOps stPair relPair "" ""` evaluates to. -/
def opsPair : List Op :=
  [{ c := .relationsC, id := "r1",
     assert := [.base (.lifeIs .Alive), .base (.unitcountEq 0)], remove := true },
   { c := .applicationsC, id := "mysql",
     assert := [.base (.relationcountGt 0), .base (.lifeIs .Alive)],
     incRelationcount := some (-1) },
   { c := .applicationsC, id := "wordpress",
     assert := [.base (.relationcountGt 0), .base (.lifeIs .Alive)],
     incRelationcount := some (-1) },
   { c := .cleanupsC, id := "settings#r#7#", insertCleanup := some ("settings", "r#7#") }]

/-- An Alive relation with units still in scope. -/
def relScoped : RelationDoc :=
  { docID := "r2", key := "wordpress:db mysql:server", id := 8,
    endpoints := [{ applicationName := "mysql", role := .Provider },
                  { applicationName := "wordpress", role := .Requirer }],
    life := .Alive, unitCount := 2 }

/-- A Dying relation. -/
def relDying : RelationDoc :=
  { docID := "r9", key := "wordpress:db mysql:server", id := 9,
    endpoints := [{ applicationName := "mysql", role := .Provider },
                  { applicationName := "wordpress", role := .Requirer }],
    life := .Dying, unitCount := 3 }

/-- A peer endpoint. -/
def epPeer : Endpoint := { applicationName := "riak", role := .Peer }

/-- A single-endpoint peer relation. -/
def relPeer : RelationDoc :=
  { docID := "r3", key := "riak:ring", id := 3, endpoints := [epPeer],
    life := .Alive, unitCount := 0 }

/-- The mysql endpoint of the fixture relations. -/
def epMysql : Endpoint := { applicationName := "mysql", role := .Provider }

/-- Application fields satisfying the not-removable `$or` assertion with a
zero relation count. -/
def fieldsZeroRc : DocFields := { life := .Alive, unitcount := 5, relationcount := 0 }

/-- The decrement operation guarded only by the not-removable `$or`. -/
def orDecOp : Op :=
  { c := .applicationsC, id := "mysql",
    assert := [.or [.lifeIs .Alive, .unitcountGt 0, .relationcountGt 1]],
    incRelationcount := some (-1) }

/-- A local application already eligible for removal. -/
def appEligible : ApplicationDoc :=
  { name := "mysql", life := .Dying, unitCount := 0, relationCount := 1 }

/-- A remote application already eligible for removal. -/
def rappEligible : RemoteApplicationDoc :=
  { name := "mysql", life := .Dying, relationCount := 1 }

/-- A store whose mysql entries are eligible for removal. -/
def stEligible : Store :=
  { applications := [appEligible], remoteApplications := [rappEligible] }

/-- A store with one settings document under the `r#7#` key space. -/
def stSettings : Store := { settings := ["r#7#mysql", "other"] }

/-- The cleanup operations the handler builds for `stSettings`. -/
def opsSettings : List Op := [{ c := .settingsC, id := "r#7#mysql", remove := true }]

/-- Application fields with a positive relation count. -/
def fieldsPosRc : DocFields := { life := .Alive, unitcount := 1, relationcount := 2 }

/-- A store holding both the fixture relation document and its Alive
endpoint applications. -/
def stFull : Store := { relations := [relPair], applications := [appMysql, appWordpress] }

/-! ### Helper lemmas -/

/-- No operation built by `removeLocalEndpointOps` enqueues a cleanup. -/
theorem removeLocalEndpointOps_no_cleanup (st : Store) (ep : Endpoint) (d : String)
    (ops : List Op) (h : removeLocalEndpointOps st ep d = .ok ops) :
    ∀ op ∈ ops, op.insertCleanup = none := by
  unfold removeLocalEndpointOps applicationRemoveOps at h
  split at h
  · simp only [Except.ok.injEq] at h
    subst h; intro op hop; simp at hop; subst hop; rfl
  · split at h
    · simp only [Except.ok.injEq] at h
      subst h; intro op hop; simp at hop; subst hop; rfl
    · split at h
      · split at h
        · simp only [Except.ok.injEq] at h
          subst h; intro op hop; simp at hop; subst hop; rfl
        · simp only [Except.ok.injEq] at h
          subst h; intro op hop; simp at hop; subst hop; rfl
      · simp only [Except.ok.injEq] at h
        subst h; intro op hop; simp at hop; subst hop; rfl

/-- No operation built by `removeRemoteEndpointOps` enqueues a cleanup. -/
theorem removeRemoteEndpointOps_no_cleanup (st : Store) (ep : Endpoint) (u : Bool)
    (ops : List Op) (h : removeRemoteEndpointOps st ep u = .ok ops) :
    ∀ op ∈ ops, op.insertCleanup = none := by
  unfold removeRemoteEndpointOps remoteApplicationRemoveOps at h
  split at h
  · simp only [Except.ok.injEq] at h
    subst h; intro op hop; simp at hop; subst hop; rfl
  · split at h
    · split at h
      · simp only [Except.ok.injEq] at h
        subst h; intro op hop; simp at hop; subst hop; rfl
      · simp only [Except.ok.injEq] at h
        subst h; intro op hop; simp at hop; subst hop; rfl
    · simp only [Except.ok.injEq] at h
      subst h; intro op hop; simp at hop; subst hop; rfl

/-- No operation built by the endpoint loop enqueues a cleanup. -/
theorem endpointOps_no_cleanup (st : Store) (ig d : String) :
    ∀ (eps : List Endpoint) (ops : List Op),
      endpointOps st ig d eps = .ok ops → ∀ op ∈ ops, op.insertCleanup = none := by
  intro eps
  induction eps with
  | nil =>
    intro ops h
    simp only [endpointOps, Except.ok.injEq] at h
    subst h; simp
  | cons ep rest ih =>
    intro ops h
    unfold endpointOps at h
    split at h
    · exact ih ops h
    · split at h
      case h_1 => exact absurd h (by simp)
      case h_2 isRemote hr =>
        split at h
        case h_1 => exact absurd h (by simp)
        case h_2 epOps he =>
          split at h
          case h_1 => exact absurd h (by simp)
          case h_2 restOps hrest =>
            simp only [Except.ok.injEq] at h
            subst h
            intro op hop
            rcases List.mem_append.mp hop with hmem | hmem
            · cases isRemote with
              | true =>
                rw [if_pos rfl] at he
                exact removeRemoteEndpointOps_no_cleanup st ep (d ≠ "") epOps he op hmem
              | false =>
                rw [if_neg (by simp)] at he
                exact removeLocalEndpointOps_no_cleanup st ep d epOps he op hmem
            · exact ih restOps hrest op hmem

/-- A first attempt on a non-Alive snapshot succeeds immediately without
touching the store: `destroyOps` signals already-dying and the runner
treats that as no-operations. -/
theorem runLoop_not_alive (st : Store) (rel : RelationDoc) (fuel : Nat)
    (h : ¬ rel.life = .Alive) : runLoop st rel 0 (fuel + 1) = (.ok (), st) := by
  have hado : destroyOps st rel "" = .error .alreadyDying := by
    simp [destroyOps, h]
  simp [runLoop, buildTxn, hado]

/-- The endpoint loop never reads the relations collection. -/
theorem endpointOps_relations_irrel (st : Store) (R : List RelationDoc) (ig d : String) :
    ∀ eps, endpointOps { st with relations := R } ig d eps = endpointOps st ig d eps := by
  intro eps
  induction eps with
  | nil => rfl
  | cons ep rest ih =>
    unfold endpointOps
    have h1 : applicationIsRemote { st with relations := R } ep.applicationName =
        applicationIsRemote st ep.applicationName := rfl
    have h2 : removeLocalEndpointOps { st with relations := R } ep d =
        removeLocalEndpointOps st ep d := rfl
    have h3 : removeRemoteEndpointOps { st with relations := R } ep (d ≠ "") =
        removeRemoteEndpointOps st ep (d ≠ "") := rfl
    rw [h1, h2, h3, ih]

/-- `destroyOps` never reads the relations collection: the snapshot it
is handed is the only relation state it consults. -/
theorem destroyOps_relations_irrel (st : Store) (R : List RelationDoc)
    (doc : RelationDoc) (ig : String) :
    destroyOps { st with relations := R } doc ig = destroyOps st doc ig := by
  unfold destroyOps removeOps
  rw [endpointOps_relations_irrel]

/-- Folding settings-removal operations over the store deletes exactly
those ids from the settings collection. -/
theorem settings_after_removes (ids : List String) (st : Store) :
    ((ids.map (fun i => ({ c := Collection.settingsC, id := i, remove := true } : Op))).foldl
        applyOp st).settings =
      ids.foldl (fun acc i => acc.filter (fun y => y ≠ i)) st.settings := by
  induction ids generalizing st with
  | nil => rfl
  | cons i rest ih =>
    simp only [List.map_cons, List.foldl_cons]
    rw [ih]
    rfl

/-- Membership after repeatedly filtering out each id of a list. -/
theorem mem_foldl_filter (ids : List String) (s : List String) (x : String) :
    x ∈ ids.foldl (fun acc i => acc.filter (fun y => y ≠ i)) s ↔ x ∈ s ∧ x ∉ ids := by
  induction ids generalizing s with
  | nil => simp
  | cons i rest ih =>
    simp only [List.foldl_cons, ih, List.mem_filter, List.mem_cons]
    constructor
    · rintro ⟨⟨hs, hne⟩, hrest⟩
      refine ⟨hs, ?_⟩
      simp only [decide_eq_true_eq] at hne
      rintro (rfl | hmem)
      · exact hne rfl
      · exact hrest hmem
    · rintro ⟨hs, hni⟩
      refine ⟨⟨hs, ?_⟩, fun hmem => hni (Or.inr hmem)⟩
      simp only [decide_eq_true_eq]
      intro hx
      exact hni (Or.inl hx)

/-! ### Claim theorems -/

/-- C2: for an Alive relation with units in scope, `destroyOps` returns
exactly one operation, on the relation's own document, asserting
`life == Alive && unitcount > 0` and setting `life = Dying`; it mutates
nothing else and emits no operations on the endpoint applications. -/
theorem destroyOps_sets_dying (st : Store) (doc : RelationDoc) (ig : String)
    (hl : doc.life = .Alive) (hc : 0 < doc.unitCount) :
    destroyOps st doc ig =
      .ok ([{ c := .relationsC, id := doc.docID,
              assert := [.base (.lifeIs .Alive), .base (.unitcountGt 0)],
              setLife := some .Dying }], false) := by
  have h0 : ¬ doc.unitCount = 0 := by omega
  simp [destroyOps, hl, h0]

/-- Witness for C2 at a concrete Alive relation with two units in scope. -/
theorem destroyOps_sets_dying_witness :
    relScoped.life = .Alive ∧ 0 < relScoped.unitCount ∧
    destroyOps {} relScoped "" =
      .ok ([{ c := .relationsC, id := "r2",
              assert := [.base (.lifeIs .Alive), .base (.unitcountGt 0)],
              setLife := some .Dying }], false) :=
  ⟨rfl, by decide, destroyOps_sets_dying {} relScoped "" rfl (by decide)⟩

/-- C6: `Destroy` on a relation whose endpoint list is a single peer
endpoint fails immediately with the peer-relation error; the store is
returned unchanged and the in-memory snapshot untouched. -/
theorem destroy_solo_peer_error (st : Store) (doc : RelationDoc) (ep : Endpoint)
    (he : doc.endpoints = [ep]) (hr : ep.role = .Peer) :
    destroy st doc = (.error .peerRelation, st, doc) := by
  have hp : isSoloPeerRelation doc = true := by
    simp [isSoloPeerRelation, he, hr]
  simp [destroy, hp]

/-- Witness for C6 at a concrete single-endpoint peer relation. -/
theorem destroy_solo_peer_error_witness :
    relPeer.endpoints = [epPeer] ∧ epPeer.role = .Peer ∧
    destroy {} relPeer = (.error .peerRelation, {}, relPeer) :=
  ⟨rfl, rfl, destroy_solo_peer_error {} relPeer epPeer rfl rfl⟩

/-- C8: `Refresh` reports NotFound exactly when either no document
exists under the relation's key, or the stored document's internal `Id`
differs from the snapshot's — a recreated relation in the same identity
slot is never presented as a refresh of the old one.  (On NotFound the
in-memory snapshot is left unchanged: `refresh` returns no document.) -/
theorem refresh_notfound_iff (st : Store) (rel : RelationDoc) :
    refresh st rel = none ↔
      findRelation st rel.docID = none ∨
        ∃ d, findRelation st rel.docID = some d ∧ d.id ≠ rel.id := by
  cases h : findRelation st rel.docID with
  | none => simp [refresh, h]
  | some d =>
    by_cases hid : rel.id = d.id
    · simp [refresh, h, hid]
    · simp [refresh, h, hid]
      exact fun hc => hid hc.symm

/-- C10: whenever `Destroy` succeeds, the caller's in-memory snapshot
has `life = Dying` — including when the committed transaction removed
the document outright or was a no-op — never Dead and never left
Alive. -/
theorem destroy_ok_inmemory_dying (st st' : Store) (doc doc' : RelationDoc)
    (h : destroy st doc = (.ok (), st', doc')) : doc'.life = .Dying := by
  unfold destroy at h
  split at h
  · simp at h
  · split at h
    · simp only [Prod.mk.injEq] at h
      rw [← h.2.2]
    · simp at h

/-- Witness for C10: a successful `Destroy` of an already-Dying relation
leaves the in-memory life at Dying. -/
theorem destroy_ok_inmemory_dying_witness :
    destroy {} relDying = (.ok (), {}, relDying) ∧ relDying.life = .Dying :=
  ⟨by decide, destroy_ok_inmemory_dying {} {} relDying relDying (by decide)⟩

/-- C3: `destroyOps` on a Dying or Dead snapshot returns the
already-dying signal with no operations, and `Destroy` treats this as
success: a second `Destroy` after a successful one (no intervening
state change) returns no error, leaves the store exactly as the first
call left it, and leaves the in-memory snapshot unchanged. -/
theorem destroy_already_dying_idempotent (st st₁ : Store) (doc doc₁ : RelationDoc)
    (ig : String) :
    ((doc.life = .Dying ∨ doc.life = .Dead) → destroyOps st doc ig = .error .alreadyDying) ∧
    (destroy st doc = (.ok (), st₁, doc₁) → destroy st₁ doc₁ = (.ok (), st₁, doc₁)) := by
  constructor
  · intro hd
    have hne : ¬ doc.life = .Alive := by rcases hd with h | h <;> simp [h]
    simp [destroyOps, hne]
  · intro h
    unfold destroy at h
    split at h
    · simp at h
    case isFalse hp =>
      split at h
      case h_1 st₂ hr =>
        simp only [Prod.mk.injEq] at h
        obtain ⟨-, hst, hdoc⟩ := h
        rw [← hst, ← hdoc]
        have hsolo : isSoloPeerRelation { doc with life := Life.Dying } =
            isSoloPeerRelation doc := rfl
        unfold destroy
        rw [hsolo, if_neg hp]
        have hrun : runLoop st₂ { doc with life := Life.Dying } 0 nrRetries =
            (.ok (), st₂) := by
          have hnr : nrRetries = 2 + 1 := rfl
          rw [hnr]
          exact runLoop_not_alive st₂ _ 2 (fun hcon => nomatch hcon)
        rw [hrun]
      case h_2 e st₂ hr => simp at h

/-- Witness for C3: the already-dying signal at a concrete Dying
relation, and idempotence of a concrete successful `Destroy`. -/
theorem destroy_already_dying_idempotent_witness :
    destroyOps {} relDying "x" = .error .alreadyDying ∧
    destroy {} relDying = (.ok (), {}, relDying) :=
  ⟨(destroy_already_dying_idempotent {} {} relDying relDying "x").1 (Or.inl rfl),
   (destroy_already_dying_idempotent {} {} relDying relDying "x").2 (by decide)⟩

/-- C1: any successful `removeOps` set starts with the operation
removing the relation's own document — asserting
`life == Alive && unitcount == 0` when there is no departing unit and
`life == Dying && unitcount == 1` when there is — and ends with exactly
one cleanup-enqueue operation, for the relation's settings key space;
in the no-departing-unit case this set is exactly what `destroyOps`
returns for an Alive relation with no units in scope. -/
theorem removeOps_self_and_cleanup (st : Store) (doc : RelationDoc) (ig d : String)
    (ops : List Op) (h : removeOps st doc ig d = .ok ops) :
    ops.head? = some
      { c := .relationsC, id := doc.docID,
        assert :=
          if d ≠ "" then [.base (.lifeIs .Dying), .base (.unitcountEq 1)]
          else [.base (.lifeIs .Alive), .base (.unitcountEq 0)],
        remove := true } ∧
    ops.getLast? =
      some (newCleanupOp cleanupRelationSettings ("r#" ++ toString doc.id ++ "#")) ∧
    (ops.filter (fun op => op.insertCleanup.isSome)).length = 1 ∧
    (d = "" → doc.life = .Alive → doc.unitCount = 0 →
      destroyOps st doc ig = .ok (ops, true)) := by
  simp only [removeOps] at h
  split at h
  · simp at h
  case h_2 epOps he =>
    simp only [Except.ok.injEq] at h
    subst h
    have hnc : ∀ op ∈ epOps, op.insertCleanup = none :=
      endpointOps_no_cleanup st ig d doc.endpoints epOps he
    refine ⟨by simp, ?_, ?_, ?_⟩
    · exact List.getLast?_concat _
    · have hfil : epOps.filter (fun op => op.insertCleanup.isSome) = [] := by
        rw [List.filter_eq_nil_iff]
        intro op hop
        simp [hnc op hop]
      simp [List.filter_append, hfil, newCleanupOp]
    · intro hd0 hl hc
      subst hd0
      simp [destroyOps, hl, hc, removeOps, he, Except.map]

/-- Witness for C1 at a concrete relation between two Alive
applications, no departing unit. -/
theorem removeOps_self_and_cleanup_witness :
    removeOps stPair relPair "" "" = .ok opsPair ∧
    opsPair.head? = some
      { c := .relationsC, id := "r1",
        assert := [.base (.lifeIs .Alive), .base (.unitcountEq 0)], remove := true } ∧
    opsPair.getLast? = some (newCleanupOp cleanupRelationSettings "r#7#") ∧
    (opsPair.filter (fun op => op.insertCleanup.isSome)).length = 1 ∧
    destroyOps stPair relPair "" = .ok (opsPair, true) := by
  have h := removeOps_self_and_cleanup stPair relPair "" "" opsPair (by decide)
  exact ⟨by decide, h.1, h.2.1, h.2.2.1, h.2.2.2 rfl rfl rfl⟩

/-- C7: in `Destroy`'s transaction builder, the snapshot is consulted
from the store (refreshed) only when `attempt > 0` — at attempt 0 the
builder's output does not depend on the relations collection at all —
and a NotFound refresh on a retry yields an empty operation set, which
makes the run of `Destroy`'s loop terminate successfully with the store
untouched. -/
theorem destroy_refresh_retry (st : Store) (rel : RelationDoc) (n fuel : Nat)
    (R : List RelationDoc) (hn : 0 < n) (hnf : refresh st rel = none) :
    buildTxn st rel n = .ok (rel, some []) ∧
    buildTxn { st with relations := R } rel 0 = buildTxn st rel 0 ∧
    (∀ (st₂ : Store) (doc₂ : RelationDoc) (res : RelationDoc × Option (List Op)),
      refresh st₂ rel = some doc₂ → buildTxn st₂ rel n = .ok res → res.1 = doc₂) ∧
    (∀ (st₂ : Store) (res : RelationDoc × Option (List Op)),
      buildTxn st₂ rel 0 = .ok res → res.1 = rel) ∧
    runLoop st rel n (fuel + 1) = (.ok (), st) := by
  have hb : buildTxn st rel n = .ok (rel, some []) := by
    simp [buildTxn, hn, hnf]
  have h00 : ¬ (0 : Nat) < 0 := by omega
  refine ⟨hb, ?_, ?_, ?_, ?_⟩
  · simp [buildTxn, h00, destroyOps_relations_irrel]
  · intro st₂ doc₂ res href hbt
    simp [buildTxn, hn, href] at hbt
    split at hbt
    all_goals first
      | exact Except.noConfusion hbt
      | (simp only [Except.ok.injEq] at hbt; rw [← hbt])
  · intro st₂ res hbt
    simp [buildTxn, h00] at hbt
    split at hbt
    all_goals first
      | exact Except.noConfusion hbt
      | (simp only [Except.ok.injEq] at hbt; rw [← hbt])
  · simp [runLoop, hb, applyTxn]

/-- Witness for C7: an empty store (so refresh reports NotFound), one
retry attempt, arbitrary replacement relations collection. -/
theorem destroy_refresh_retry_witness :
    0 < 1 ∧ refresh {} relPair = none ∧
    buildTxn {} relPair 1 = .ok (relPair, some []) ∧
    buildTxn { ({} : Store) with relations := [relDying] } relPair 0 =
      buildTxn {} relPair 0 ∧
    ((relPair, some opsPair) : RelationDoc × Option (List Op)).1 = relPair ∧
    runLoop {} relPair 1 1 = (.ok (), {}) := by
  have h := destroy_refresh_retry {} relPair 1 0 [relDying] (by decide) (by decide)
  exact ⟨by decide, by decide, h.1, h.2.1,
    h.2.2.1 stFull relPair (relPair, some opsPair) (by decide) (by decide),
    h.2.2.2.2⟩

/-- C4 counterexample: in the departing-unit path, for an endpoint
application other than the departing unit's that is not found removable,
`removeLocalEndpointOps` emits a relationcount decrement whose only
assertion is the not-removable `$or`, and that assertion is satisfied by
application fields whose relationcount is 0 — so the operation does not
carry an assertion guaranteeing the pre-decrement relationcount is
positive. -/
theorem decrement_without_positive_assert :
    removeLocalEndpointOps stPair epMysql "other/0" = .ok [orDecOp] ∧
    orDecOp.incRelationcount = some (-1) ∧
    assertHolds fieldsZeroRc orDecOp.assert = true ∧
    fieldsZeroRc.relationcount = 0 := by decide

/-- C4 (amended): decrements emitted on the destroy path (no departing
unit), and the decrement for the departing unit's own application, carry
an assertion implying the pre-decrement relationcount is positive
(`relationcount > 0`), as does the remote destroy-path decrement; the
remaining departing-unit decrement carries only the not-removable `$or`
assertion. -/
theorem decrement_asserts_positive_refcount (st : Store) (ep : Endpoint) (d : String)
    (f : DocFields) :
    (removeLocalEndpointOps st ep "" =
      .ok [{ c := .applicationsC, id := ep.applicationName,
             assert := [.base (.relationcountGt 0), .base (.lifeIs .Alive)],
             incRelationcount := some (-1) }]) ∧
    (assertHolds f [.base (.relationcountGt 0), .base (.lifeIs .Alive)] = true →
      0 < f.relationcount) ∧
    (d ≠ "" → departingMatchesEndpoint d ep = true →
      removeLocalEndpointOps st ep d =
        .ok [{ c := .applicationsC, id := ep.applicationName,
               assert := [.base (.relationcountGt 0), .base (.unitcountGt 0)],
               incRelationcount := some (-1) }]) ∧
    (assertHolds f [.base (.relationcountGt 0), .base (.unitcountGt 0)] = true →
      0 < f.relationcount) ∧
    (removeRemoteEndpointOps st ep false =
      .ok [{ c := .remoteApplicationsC, id := ep.applicationName,
             assert := [.base (.relationcountGt 0), .base (.lifeIs .Alive)],
             incRelationcount := some (-1) }]) := by
  refine ⟨?_, ?_, ?_, ?_, ?_⟩
  · simp [removeLocalEndpointOps, isAliveDoc]
  · intro hf
    simp [assertHolds, condHolds, bcondHolds] at hf
    exact hf.1
  · intro hd hm
    simp [removeLocalEndpointOps, hd, hm]
  · intro hf
    simp [assertHolds, condHolds, bcondHolds] at hf
    exact hf.1
  · simp [removeRemoteEndpointOps, isAliveDoc]

/-- Witness for the amended C4 at concrete inputs. -/
theorem decrement_asserts_positive_refcount_witness :
    removeLocalEndpointOps stPair epMysql "" =
      .ok [{ c := .applicationsC, id := "mysql",
             assert := [.base (.relationcountGt 0), .base (.lifeIs .Alive)],
             incRelationcount := some (-1) }] ∧
    removeLocalEndpointOps stPair epMysql "mysql/0" =
      .ok [{ c := .applicationsC, id := "mysql",
             assert := [.base (.relationcountGt 0), .base (.unitcountGt 0)],
             incRelationcount := some (-1) }] ∧
    removeRemoteEndpointOps stPair epMysql false =
      .ok [{ c := .remoteApplicationsC, id := "mysql",
             assert := [.base (.relationcountGt 0), .base (.lifeIs .Alive)],
             incRelationcount := some (-1) }] ∧
    0 < fieldsPosRc.relationcount := by
  have h := decrement_asserts_positive_refcount stPair epMysql "mysql/0" fieldsPosRc
  exact ⟨h.1, h.2.2.1 (by decide) (by decide), h.2.2.2.2, h.2.1 (by decide)⟩

/-- C5: in the departing-unit path, for an endpoint application other
than the departing unit's, the builder inlines the application's full
removal operation set when the synchronous query finds it eligible
(local: Dying, unitcount 0, relationcount 1; remote: Dying,
relationcount 1); otherwise it emits the relationcount decrement guarded
by the `$or` assertion, which guarantees the eligibility condition does
not hold at commit time. -/
theorem inline_removal_when_eligible (st : Store) (ep : Endpoint) (d : String)
    (svc : ApplicationDoc) (rsvc : RemoteApplicationDoc)
    (hd : d ≠ "") (hm : departingMatchesEndpoint d ep = false) :
    (findApplication st ep.applicationName = some svc →
      svc.life = .Dying → svc.unitCount = 0 → svc.relationCount = 1 →
      removeLocalEndpointOps st ep d = applicationRemoveOps svc hasLastRefLocal) ∧
    ((∀ a, findApplication st ep.applicationName = some a →
        ¬(a.life = .Dying ∧ a.unitCount = 0 ∧ a.relationCount = 1)) →
      removeLocalEndpointOps st ep d =
        .ok [{ c := .applicationsC, id := ep.applicationName,
               assert := [.or [.lifeIs .Alive, .unitcountGt 0, .relationcountGt 1]],
               incRelationcount := some (-1) }]) ∧
    (∀ g : DocFields,
      assertHolds g [.or [.lifeIs .Alive, .unitcountGt 0, .relationcountGt 1]] = true →
      ¬(g.life = .Dying ∧ g.unitcount = 0 ∧ g.relationcount = 1)) ∧
    (findRemoteApplication st ep.applicationName = some rsvc →
      rsvc.life = .Dying → rsvc.relationCount = 1 →
      removeRemoteEndpointOps st ep true =
        .ok (remoteApplicationRemoveOps rsvc hasLastRefRemote)) ∧
    ((∀ a, findRemoteApplication st ep.applicationName = some a →
        ¬(a.life = .Dying ∧ a.relationCount = 1)) →
      removeRemoteEndpointOps st ep true =
        .ok [{ c := .remoteApplicationsC, id := ep.applicationName,
               assert := [.or [.lifeIs .Alive, .relationcountGt 1]],
               incRelationcount := some (-1) }]) ∧
    (∀ g : DocFields,
      assertHolds g [.or [.lifeIs .Alive, .relationcountGt 1]] = true →
      ¬(g.life = .Dying ∧ g.relationcount = 1)) := by
  refine ⟨?_, ?_, ?_, ?_, ?_, ?_⟩
  · intro hf h1 h2 h3
    simp [removeLocalEndpointOps, hd, hm, hf, h1, h2, h3]
  · intro hno
    cases hf : findApplication st ep.applicationName with
    | none => simp [removeLocalEndpointOps, hd, hm, hf]
    | some a =>
      have hna := hno a hf
      simp [removeLocalEndpointOps, hd, hm, hf, hna]
  · intro g hg
    simp only [assertHolds, condHolds, bcondHolds, List.all_cons, List.all_nil,
      List.any_cons, List.any_nil, Bool.and_true, Bool.or_false,
      Bool.or_eq_true, decide_eq_true_eq] at hg
    rintro ⟨hl, hu, hr⟩
    rcases hg with hg | hg | hg
    · rw [hl] at hg; exact absurd hg (by simp)
    · omega
    · omega
  · intro hf h1 h2
    simp [removeRemoteEndpointOps, hf, h1, h2]
  · intro hno
    cases hf : findRemoteApplication st ep.applicationName with
    | none => simp [removeRemoteEndpointOps, hf]
    | some a =>
      have hna := hno a hf
      simp [removeRemoteEndpointOps, hf, hna]
  · intro g hg
    simp only [assertHolds, condHolds, bcondHolds, List.all_cons, List.all_nil,
      List.any_cons, List.any_nil, Bool.and_true, Bool.or_false,
      Bool.or_eq_true, decide_eq_true_eq] at hg
    rintro ⟨hl, hr⟩
    rcases hg with hg | hg
    · rw [hl] at hg; exact absurd hg (by simp)
    · omega

/-- Witness for C5: a store with an eligible local and remote mysql
(inlined removal), and a store whose mysql is not eligible (guarded
decrement). -/
theorem inline_removal_when_eligible_witness :
    removeLocalEndpointOps stEligible epMysql "other/0" =
      applicationRemoveOps appEligible hasLastRefLocal ∧
    removeRemoteEndpointOps stEligible epMysql true =
      .ok (remoteApplicationRemoveOps rappEligible hasLastRefRemote) ∧
    removeLocalEndpointOps stPair epMysql "other/0" = .ok [orDecOp] := by
  have h1 := inline_removal_when_eligible stEligible epMysql "other/0" appEligible
    rappEligible (by decide) (by decide)
  have h2 := inline_removal_when_eligible stPair epMysql "other/0" appMysql
    rappEligible (by decide) (by decide)
  refine ⟨h1.1 (by decide) rfl rfl rfl, h1.2.2.2.1 (by decide) rfl rfl, ?_⟩
  have hres := h2.2.1 ?_
  · exact hres
  · intro a ha
    rw [show findApplication stPair epMysql.applicationName = some appMysql from rfl] at ha
    cases ha
    decide

/-- C9: the settings cleanup handler signals already-complete exactly
when no settings document id matches the prefix; otherwise it returns
one removal operation per matched document and nothing else, and after
those operations are applied to the store, running the handler again
signals already-complete. -/
theorem relationSettingsCleanup_idempotent (st : Store) (pre : String) :
    (relationSettingsCleanupPrepare st pre = .error .changeComplete ↔
      ∀ i ∈ st.settings, ¬ pre.toList.isPrefixOf i.toList = true) ∧
    (∀ ops, relationSettingsCleanupPrepare st pre = .ok ops →
      ops = (st.settings.filter (fun i => pre.toList.isPrefixOf i.toList)).map
              (fun i => { c := .settingsC, id := i, remove := true }) ∧
      ∃ st', applyTxn st ops = some st' ∧
        relationSettingsCleanupPrepare st' pre = .error .changeComplete) := by
  have hiff : (st.settings.filter (fun i => pre.toList.isPrefixOf i.toList)).isEmpty = true ↔
      ∀ i ∈ st.settings, ¬ pre.toList.isPrefixOf i.toList = true := by
    simp [List.isEmpty_iff, List.filter_eq_nil_iff]
  constructor
  · simp only [relationSettingsCleanupPrepare]
    by_cases he : (st.settings.filter (fun i => pre.toList.isPrefixOf i.toList)).isEmpty = true
    · rw [if_pos he]
      simpa using hiff.mp he
    · rw [if_neg he]
      constructor
      · intro hcon
        exact absurd hcon (by simp)
      · intro hall
        exact absurd (hiff.mpr hall) he
  · intro ops h
    simp only [relationSettingsCleanupPrepare] at h
    split at h
    · simp at h
    case isFalse he =>
      simp only [Except.ok.injEq] at h
      subst h
      refine ⟨rfl, ?_⟩
      have hall : ((st.settings.filter (fun i => pre.toList.isPrefixOf i.toList)).map
          (fun i => ({ c := .settingsC, id := i, remove := true } : Op))).all
            (opAssertOk st) = true := by
        rw [List.all_eq_true]
        intro op hop
        simp only [List.mem_map] at hop
        obtain ⟨i, hi, rfl⟩ := hop
        rfl
      refine ⟨((st.settings.filter (fun i => pre.toList.isPrefixOf i.toList)).map
          (fun i => ({ c := .settingsC, id := i, remove := true } : Op))).foldl applyOp st,
        ?_, ?_⟩
      · simp only [applyTxn, hall, if_true]
      have hempty : ((((st.settings.filter (fun i => pre.toList.isPrefixOf i.toList)).map
          (fun i => ({ c := .settingsC, id := i, remove := true } : Op))).foldl applyOp
            st).settings.filter (fun i => pre.toList.isPrefixOf i.toList)).isEmpty = true := by
        rw [settings_after_removes]
        simp only [List.isEmpty_iff, List.filter_eq_nil_iff]
        intro x hx
        rw [mem_foldl_filter] at hx
        intro hp
        exact hx.2 (List.mem_filter.mpr ⟨hx.1, hp⟩)
      simp only [relationSettingsCleanupPrepare]
      rw [if_pos hempty]

/-- Witness for C9 at a concrete store with one matching settings
document. -/
theorem relationSettingsCleanup_idempotent_witness :
    relationSettingsCleanupPrepare stSettings "r#7#" = .ok opsSettings ∧
    (opsSettings = (stSettings.settings.filter
        (fun i => ("r#7#" : String).toList.isPrefixOf i.toList)).map
          (fun i => { c := .settingsC, id := i, remove := true }) ∧
      ∃ st', applyTxn stSettings opsSettings = some st' ∧
        relationSettingsCleanupPrepare st' "r#7#" = .error .changeComplete) := by
  have h := (relationSettingsCleanup_idempotent stSettings "r#7#").2 opsSettings (by decide)
  exact ⟨by decide, h⟩

end JujuState
